import Mathlib

/-!
Verification development for the YouTube transcript downloader
(`youtube_transcript_downloader.py`): a shallow embedding of the
batch-ingestion and deduplication pipeline, with theorems about the
helper functions (`sanitize_filename`, `sanitize_text`,
`parse_time_format`, `parse_iso8601_duration`), the per-video fetch flow
(`fetch_single_video`), batch URL construction
(`process_file_with_video_urls`), channel enumeration
(`fetch_channel_videos`), persistence (`save_transcript`) and duplicate
detection (`find_duplicate_transcripts` / `compute_sha1`).

Strings are modelled as Lean `String`/`List Char`; Python's `None`-able
dictionary values are modelled by the inductive `PyVal`; fallible
operations return `Option`.
-/

namespace YTD

/-- Whitespace as matched by Python's `re` module `\s` class and by
`str.strip()` / `str.isspace()` on `str` inputs: the Unicode whitespace
code points. -/
def isPyWs (c : Char) : Bool :=
  ([9, 10, 11, 12, 13, 28, 29, 30, 31, 32, 133, 160, 0x1680,
    0x2000, 0x2001, 0x2002, 0x2003, 0x2004, 0x2005, 0x2006, 0x2007,
    0x2008, 0x2009, 0x200A, 0x2028, 0x2029, 0x202F, 0x205F, 0x3000] : List Nat).contains c.toNat

/-- Python `str.strip()`: drop leading and trailing whitespace. -/
def stripWs (l : List Char) : List Char :=
  ((l.dropWhile isPyWs).reverse.dropWhile isPyWs).reverse

/-- The character class of the regex `[\\^$.|?*+(){}[\]]` used by
`sanitize_text` (regex-special characters), by code point:
backslash, caret, dollar, dot, pipe, question mark, star, plus, both
parentheses, both curly braces, both square brackets. -/
def isRegexSpecial (c : Char) : Bool :=
  ([92, 94, 36, 46, 124, 63, 42, 43, 40, 41, 123, 125, 91, 93] : List Nat).contains c.toNat

/-- The character class of the regex `[^\u0000-\u007F\u0080-￿]` used by
`sanitize_text`: the two ranges are adjacent, so the class matches exactly
the code points above U+FFFF (astral plane, where most emoji live). -/
def isAstral (c : Char) : Bool := decide (0xFFFF < c.toNat)

/-- Helper for `re.sub(r"\s+", " ", text)`: replace every maximal run of
whitespace by a single space.  The Boolean argument records whether the
previously consumed character was whitespace (in which case the current
run has already emitted its single space). -/
def collapseWsAux : Bool → List Char → List Char
  | _, [] => []
  | prevWs, c :: cs =>
    if isPyWs c then
      if prevWs then collapseWsAux true cs
      else ' ' :: collapseWsAux true cs
    else c :: collapseWsAux false cs

/-- `re.sub(r"\s+", " ", text)`. -/
def collapseWs (l : List Char) : List Char := collapseWsAux false l

/-- `sanitize_text` (source lines 102–111): on falsy (empty) input return
`""`; otherwise remove regex-special characters, remove the characters
matched by `[^\u0000-\u007F\u0080-￿]` (code points above U+FFFF),
collapse whitespace runs to single spaces, and strip. -/
def sanitize_text (s : List Char) : List Char :=
  if s = [] then []
  else
    stripWs (collapseWs (((s.filter (fun c => !(isRegexSpecial c))).filter
      (fun c => !(isAstral c)))))

/-- String wrapper for `sanitize_text`. -/
def sanitizeTextStr (s : String) : String := String.mk (sanitize_text s.data)

/-- Python regex `\w` (word character).  Modelled as ASCII alphanumeric or
underscore; Python's Unicode `\w` also admits further Unicode word
characters, but none of the properties proved below depend on the exact
extent of the class. -/
def isWordChar (c : Char) : Bool := c.isAlphanum || c == '_'

/-- The kept characters of `sanitize_filename`'s regex
`re.sub(r"[^\w\-\s]", "", name)`: word characters, the hyphen, and
whitespace (everything else is removed). -/
def keepFilenameChar (c : Char) : Bool := isWordChar c || c == '-' || isPyWs c

/-- `sanitize_filename` (source lines 96–99):
`re.sub(pattern, "", name).strip()[:max_length]`, falling back to
`"untitled"` when the result is empty. -/
def sanitize_filename_chars (name : List Char) (maxLength : Nat) : List Char :=
  let s := (stripWs (name.filter keepFilenameChar)).take maxLength
  if s = [] then "untitled".data else s

/-- String wrapper for `sanitize_filename`; the default maximum length is
the configured `TRANSCRIPT_FILENAME_LENGTH` (36). -/
def sanitize_filename (name : String) (maxLength : Nat := 36) : String :=
  String.mk (sanitize_filename_chars name.data maxLength)

/-- Decimal digit character for a value below ten. -/
def digitChar (n : Nat) : Char := Char.ofNat (48 + n)

/-- Decimal digits of `n`, most significant first; the first argument is
fuel (any fuel above `n` is enough, since `n / 10 < n` for `n ≥ 10`). -/
def natDigitsAux : Nat → Nat → List Char
  | 0, _ => []
  | fuel + 1, n =>
    if n < 10 then [digitChar n]
    else natDigitsAux fuel (n / 10) ++ [digitChar (n % 10)]

/-- Decimal digits of `n`, most significant first. -/
def natDigits (n : Nat) : List Char := natDigitsAux (n + 1) n

/-- Decimal rendering of a natural number. -/
def natStr (n : Nat) : String := String.mk (natDigits n)

/-- Python's format specifier `{:02}`: pad with a leading zero to at least
two digits. -/
def pad2 (n : Nat) : String := if n < 10 then "0" ++ natStr n else natStr n

/-- `parse_time_format` (source lines 114–124) on a non-negative integral
number of seconds: `divmod` by 3600 and 60, then `HH:MM:SS` when the hour
component is non-zero (truthy) and `MM:SS` otherwise. -/
def parse_time_format (seconds : Nat) : String :=
  let hours := seconds / 3600
  let remainder := seconds % 3600
  let minutes := remainder / 60
  let secs := remainder % 60
  if hours ≠ 0 then pad2 hours ++ ":" ++ pad2 minutes ++ ":" ++ pad2 secs
  else pad2 minutes ++ ":" ++ pad2 secs

/-! ## Python dictionary values and metadata maps -/

/-- A Python value as it occurs in the metadata dictionaries of the
program: `None`, a string, a list of strings (tags), or an integer. -/
inductive PyVal where
  | vnone
  | vstr (s : String)
  | vlist (l : List String)
  | vint (n : Int)
deriving DecidableEq

/-- The membership test `value in [None, "", []]` from
`fetch_single_video`'s metadata validation. -/
def isEmptyish : PyVal → Bool
  | .vnone => true
  | .vstr s => s == ""
  | .vlist l => l == []
  | .vint _ => false

/-- A Python dictionary with string keys, as an association list (the
program never inserts a key twice, so first-match lookup is dictionary
lookup). -/
def Metadata := List (String × PyVal)
deriving DecidableEq

/-- Dictionary lookup `m[k]` / `k in m`. -/
def dictFind (m : Metadata) (k : String) : Option PyVal :=
  (List.find? (fun e => e.1 == k) m).map (·.2)

/-- Dictionary lookup with default, `m.get(k, d)`. -/
def dictGetD (m : Metadata) (k : String) (d : PyVal) : PyVal :=
  (dictFind m k).getD d

/-- The five required metadata attributes of `fetch_single_video`. -/
def required_keys : List String :=
  ["title", "channel_title", "publish_date", "duration", "tags"]

/-- `is_metadata_valid` (source lines 181–184): every required key is
present and its value is not in `[None, "", []]`. -/
def is_metadata_valid (m : Metadata) : Bool :=
  required_keys.all (fun k =>
    match dictFind m k with
    | some v => !(isEmptyish v)
    | none => false)

/-! ## Transcript fetching (`fetch_single_video`, lines 158–219) -/

/-- One raw entry returned by the transcript provider: text plus a start
offset in whole seconds (the program truncates the float offset with
`int(...)` inside `parse_time_format`). -/
structure TranscriptEntry where
  text : String
  start : Nat
deriving DecidableEq

/-- Outcome of `YouTubeTranscriptApi.get_transcript`: success, the
`TranscriptsDisabled` signal, the `NoTranscriptFound` signal, or any
other exception with its message. -/
inductive TranscriptResult where
  | success (t : List TranscriptEntry)
  | disabled
  | notFound
  | otherError (msg : String)

/-- Observable outcome of one `fetch_single_video` run past identifier
extraction: whether the caller-supplied metadata was used as-is, the
metadata in effect afterwards, the arguments of the `save_transcript`
call when one was made (video url, transcript, channel title, title,
publish date), and the messages printed, in order. -/
structure FetchOutcome where
  usedProvided : Bool
  effectiveMeta : Metadata
  saveCall : Option (String × List TranscriptEntry × PyVal × PyVal × PyVal)
  printed : List String
deriving DecidableEq

/-- Rendering of a `PyVal` inside an f-string (only used in printed
messages; no claim depends on the exact rendering of non-strings). -/
def pyStrOf : PyVal → String
  | .vnone => "None"
  | .vstr s => s
  | .vlist _ => "[...]"
  | .vint n => toString n

/-- The body of `fetch_single_video` after a video identifier has been
extracted (source lines 176–219).  `supplied` is the caller's `metadata`
argument (`none` for Python `None`); `fetched` is the result the
external `fetch_video_metadata` collaborator would return for this video
(`[]` models the empty dictionary returned on any provider failure);
`tr` is the transcript provider's outcome. -/
def fetch_single_video_core (video_url video_id : String)
    (supplied : Option Metadata) (fetched : Metadata)
    (tr : TranscriptResult) : FetchOutcome :=
  let step1 : Metadata × Bool × List String :=
    match supplied with
    | some m =>
      if m ≠ [] then
        if is_metadata_valid m then
          (m, true, ["Using provided metadata for video ID " ++ video_id])
        else
          (fetched, false,
            ["Incomplete or invalid metadata for video ID " ++ video_id ++
              ". Fetching from API."])
      else (fetched, false, [])
    | none => (fetched, false, [])
  let meta := step1.1
  let used := step1.2.1
  let msgs := step1.2.2
  if meta = [] then
    { usedProvided := used, effectiveMeta := meta, saveCall := none,
      printed := msgs ++
        ["Failed to fetch metadata for video ID " ++ video_id ++ ". Skipping."] }
  else
    match tr with
    | .success t =>
      { usedProvided := used, effectiveMeta := meta,
        saveCall := some (video_url, t,
          dictGetD meta "channel_title" (.vstr "Unknown"),
          dictGetD meta "title" (.vstr "Unknown"),
          dictGetD meta "publish_date" (.vstr "Unknown")),
        printed := msgs ++
          ["Transcript for " ++ pyStrOf (dictGetD meta "title" (.vstr "Unknown")) ++
            " saved successfully."] }
    | .disabled =>
      { usedProvided := used, effectiveMeta := meta, saveCall := none,
        printed := msgs ++ ["Transcripts are disabled for this video."] }
    | .notFound =>
      { usedProvided := used, effectiveMeta := meta, saveCall := none,
        printed := msgs ++ ["No transcript found for this video."] }
    | .otherError e =>
      { usedProvided := used, effectiveMeta := meta, saveCall := none,
        printed := msgs ++ ["An error occurred: " ++ e] }

/-! ## Batch URL construction (`process_file_with_video_urls`, lines 366–395) -/

/-- Python `str.strip()` on a string. -/
def pystrip (s : String) : String := String.mk (stripWs s.data)

/-- Python `str.startswith`. -/
def pyStartsWith (s pat : String) : Bool := pat.data.isPrefixOf s.data

/-- Python `str.endswith`. -/
def pyEndsWith (s pat : String) : Bool := pat.data.isSuffixOf s.data

/-- The canonical watch-URL prelude the program prepends to bare video
identifiers. -/
def watchUrlBase : String := "https://www.youtube.com/watch?v="

/-- The CSV loop body of `process_file_with_video_urls` (lines 380–381):
for every row, append `watchUrlBase ++ row[0].strip()` unconditionally.
`row[0]` on an empty row raises `IndexError`, aborting the whole
processing (modelled by `none`). -/
def buildCsvUrls : List (List String) → Option (List String)
  | [] => some []
  | row :: rest =>
    match row.head? with
    | none => none
    | some c => (buildCsvUrls rest).map (fun us => (watchUrlBase ++ pystrip c) :: us)

/-- The CSV branch of `process_file_with_video_urls` (lines 377–381):
`next(reader)` discards the header row (raising `StopIteration` on an
empty file, modelled by `none`), then every remaining row's first cell
is stripped and prefixed. -/
def process_csv_rows (rows : List (List String)) : Option (List String) :=
  match rows with
  | [] => none
  | _header :: rest => buildCsvUrls rest

/-- The plain-text branch of `process_file_with_video_urls`
(lines 382–389): each line is stripped; a line starting with
`"https://"` passes through unchanged, anything else is prefixed. -/
def process_text_lines (lines : List String) : List String :=
  lines.map (fun line =>
    let v := pystrip line
    if pyStartsWith v "https://" then v else watchUrlBase ++ v)

/-! ## Duplicate detection (`find_duplicate_transcripts`, lines 398–425,
and `compute_sha1`, lines 460–470) -/

/-- A file as seen by the directory walk: its path and the byte content
the program can read from it, or `none` when reading fails (the
`except` branch of `compute_sha1`). -/
abbrev FileEntry := String × Option (List Nat)

/-- `compute_sha1`: the SHA-1 digest of the file's byte stream, or
`None` when reading raises.  The cryptographic hash is modelled as an
injective function of the content — here the identity on the byte list —
since the program only ever compares digests for equality. -/
def compute_sha1 (content : Option (List Nat)) : Option (List Nat) := content

/-- Lookup in the `hashes` dictionary of `find_duplicate_transcripts`
(digest, possibly `None`, to first-seen path). -/
def lookupHash (hashes : List (Option (List Nat) × String))
    (h : Option (List Nat)) : Option String :=
  (List.find? (fun e => decide (e.1 = h)) hashes).map (·.2)

/-- The walk loop of `find_duplicate_transcripts` (lines 408–416): for
each file, compute the digest; if it is already a key of `hashes`,
append a `(duplicate, original)` pair, else record this path as the
digest's original. -/
def scanFiles : List (Option (List Nat) × String) → List FileEntry →
    List (String × String)
  | _, [] => []
  | hashes, (path, content) :: rest =>
    match lookupHash hashes (compute_sha1 content) with
    | some orig => (path, orig) :: scanFiles hashes rest
    | none => scanFiles ((compute_sha1 content, path) :: hashes) rest

/-- `find_duplicate_transcripts` on a directory walk given as the list of
files in walk order: only names ending in `".json"` are considered. -/
def find_duplicate_transcripts (files : List FileEntry) : List (String × String) :=
  scanFiles [] (files.filter (fun f => pyEndsWith f.1 ".json"))

/-- Stated from the spec's words, for comparison with the walk loop:
each record file is paired with the first earlier record file carrying
the same digest, if there is one (`seen` is the reversed-order-free list
of files already walked). -/
def pairedWithFirstAux : List FileEntry → List FileEntry → List (String × String)
  | _, [] => []
  | seen, f :: rest =>
    match List.find? (fun g => decide (compute_sha1 g.2 = compute_sha1 f.2)) seen with
    | some g => (f.1, g.1) :: pairedWithFirstAux (seen ++ [f]) rest
    | none => pairedWithFirstAux (seen ++ [f]) rest

/-- Stated from the spec's words: the duplicate report pairs every file
with the first-seen file of its digest. -/
def pairedWithFirst (files : List FileEntry) : List (String × String) :=
  pairedWithFirstAux [] files

/-! ## ISO-8601 durations (`parse_iso8601_duration`, lines 248–255) -/

/-- Value of a non-empty digit run. -/
def digitsVal (l : List Char) : Nat :=
  l.foldl (fun a c => a * 10 + (c.toNat - 48)) 0

/-- Modelled from the spec: the external `isodate.parse_duration`
collaborator (§6), restricted to the integral `P[nW][nD][T[nH][nM][nS]]`
forms the metadata provider emits.  Parses an ordered sequence of
optional `<digits><unit>` components, each unit carrying its multiplier
in seconds; rejects leftover input. -/
def parseUnitsAux : List (Char × Nat) → List Char → Nat → Option Nat
  | _, [], acc => some acc
  | [], _ :: _, _ => none
  | (u, mult) :: us, l, acc =>
    let ds := l.takeWhile Char.isDigit
    let rest := l.dropWhile Char.isDigit
    if ds = [] then parseUnitsAux us l acc
    else
      match rest with
      | [] => none
      | c :: rest' =>
        if c = u then parseUnitsAux us rest' (acc + digitsVal ds * mult)
        else parseUnitsAux us l acc

/-- Modelled from the spec: `isodate.parse_duration` returning total
seconds, or `none` on malformed input (such as the string `"Unknown"`). -/
def parseISODuration (s : String) : Option Nat :=
  match s.data with
  | 'P' :: rest =>
    let dateChars := rest.takeWhile (fun c => c ≠ 'T')
    let timePart := rest.dropWhile (fun c => c ≠ 'T')
    match timePart with
    | [] => parseUnitsAux [('W', 604800), ('D', 86400)] dateChars 0
    | _ :: timeChars =>
      match parseUnitsAux [('W', 604800), ('D', 86400)] dateChars 0 with
      | none => none
      | some d =>
        match parseUnitsAux [('H', 3600), ('M', 60), ('S', 1)] timeChars 0 with
        | none => none
        | some t => some (d + t)
  | _ => none

/-- `parse_iso8601_duration` (lines 248–255): total seconds of the ISO
duration, defaulting to 0 when parsing raises. -/
def parse_iso8601_duration (iso : String) : Nat :=
  (parseISODuration iso).getD 0

/-! ## Channel enumeration (`fetch_channel_videos`, lines 258–363) -/

/-- One playlist item of a `playlistItems().list` page: the video
identifier under `snippet.resourceId.videoId`, when present. -/
structure PlaylistItem where
  videoId : Option String
deriving DecidableEq

/-- One page of the uploads playlist: its items and the continuation
token, when present. -/
structure PlaylistPage where
  items : List PlaylistItem
  nextPageToken : Option String

/-- One item of a `videos().list` response (snippet and contentDetails);
absent dictionary keys are `none`.  The `id` key is always present (the
program indexes `video["id"]` unconditionally). -/
structure VideoInfo where
  vid : String
  title : Option String
  tags : Option (List String)
  channelTitle : Option String
  publishedAt : Option String
  duration : Option String

/-- One `ChannelVideoRow` appended by `fetch_channel_videos`
(lines 325–334). -/
structure ChannelVideoRow where
  videoId : String
  title : String
  tags : List String
  channelTitle : String
  publishDate : String
  durationDisplay : String
deriving DecidableEq

/-- Row construction (lines 318–334): default `"Unknown"` / `[]` for
missing snippet keys; the raw duration defaults to `"Unknown"`, is
converted to seconds (0 on parse failure) and then to display form. -/
def mkRow (v : VideoInfo) : ChannelVideoRow :=
  { videoId := v.vid
    title := v.title.getD "Unknown"
    tags := v.tags.getD []
    channelTitle := v.channelTitle.getD "Unknown"
    publishDate := v.publishedAt.getD "Unknown"
    durationDisplay :=
      parse_time_format (parse_iso8601_duration (v.duration.getD "Unknown")) }

/-- The per-page body of the pagination loop (lines 297–334): collect the
resolvable video identifiers of the page (items without one are skipped),
then, when any were found, batch-resolve their metadata — the provider
contract (§6) returns one snippet+contentDetails item per requested
identifier, modelled by the total `metaOf` — and append one row each. -/
def rowsOfPage (metaOf : String → VideoInfo) (p : PlaylistPage) :
    List ChannelVideoRow :=
  let video_ids := p.items.filterMap PlaylistItem.videoId
  if video_ids.isEmpty then [] else (video_ids.map metaOf).map mkRow

/-- The pagination loop (lines 284–338) over the provider's page stream:
the first list element is the first fetched page; a page's continuation
token being present means the next stream element is fetched, its
absence breaks the loop. -/
def loopPages (metaOf : String → VideoInfo) : List PlaylistPage →
    List ChannelVideoRow
  | [] => []
  | p :: rest =>
    rowsOfPage metaOf p ++
      (if p.nextPageToken.isSome then loopPages metaOf rest else [])

/-- `fetch_channel_videos`' video collection, given the provider's page
stream and per-identifier metadata. -/
def fetch_channel_videos (metaOf : String → VideoInfo)
    (pages : List PlaylistPage) : List ChannelVideoRow :=
  loopPages metaOf pages

/-! ## Persistence (`save_transcript`, lines 428–457) -/

/-- The metadata object of a persisted `TranscriptRecord`
(lines 437–444). -/
structure SavedMeta where
  video_url : String
  channel_name : String
  video_title : String
  publish_date : String
  duration : PyVal
  tags : PyVal
deriving DecidableEq

/-- One transcript entry of a persisted record: sanitized text and the
formatted timestamp (the record's `"at"` key). -/
structure SavedEntry where
  text : String
  atDisplay : String
deriving DecidableEq

/-- The persisted record plus the path it is written to. -/
structure SavedRecord where
  path : String
  meta : SavedMeta
  transcript : List SavedEntry
deriving DecidableEq

/-- `save_transcript` (lines 428–457): sanitize title and channel name
for the path, re-resolve metadata at write time (`fetched` is what the
`fetch_video_metadata` collaborator returns, `[]` on failure), default
duration to `"Unknown"` and tags to `[]`, keep the caller's arguments in
the record's metadata verbatim, sanitize each entry's text and format
its start offset.  The function is total: a failed re-resolution never
prevents the write. -/
def save_transcript (video_url : String) (transcript : List TranscriptEntry)
    (channel_name video_title publish_date : String)
    (fetched : Metadata) : SavedRecord :=
  { path := "transcripts/" ++ sanitize_filename channel_name ++ "/" ++
      sanitize_filename video_title ++ ".json"
    meta :=
      { video_url := video_url
        channel_name := channel_name
        video_title := video_title
        publish_date := publish_date
        duration := dictGetD fetched "duration" (.vstr "Unknown")
        tags := dictGetD fetched "tags" (.vlist []) }
    transcript := transcript.map (fun e =>
      { text := sanitizeTextStr e.text, atDisplay := parse_time_format e.start }) }

/-! ## Helper lemmas -/

theorem head?_take_eq_some {α : Type} {l : List α} {m : Nat} {c : α}
    (h : (l.take m).head? = some c) : l.head? = some c := by
  cases l with
  | nil => simp at h
  | cons a t =>
    cases m with
    | zero => simp at h
    | succ n => simpa using h

theorem dropWhile_eq_self_of_head {α : Type} (p : α → Bool) (l : List α)
    (h : ∀ c, l.head? = some c → p c = false) : l.dropWhile p = l := by
  cases l with
  | nil => rfl
  | cons a t => simp [List.dropWhile_cons, h a rfl]

theorem dropWhile_head_false {α : Type} {p : α → Bool} {l : List α} {c : α}
    (h : (l.dropWhile p).head? = some c) : p c = false := by
  have := List.head?_dropWhile_not p l
  rw [h] at this
  exact this

theorem mem_stripWs {l : List Char} {c : Char} (h : c ∈ stripWs l) : c ∈ l := by
  unfold stripWs at h
  rw [List.mem_reverse] at h
  have h2 := (List.dropWhile_sublist isPyWs).subset h
  rw [List.mem_reverse] at h2
  exact (List.dropWhile_sublist isPyWs).subset h2

theorem stripWs_eq_self {l : List Char}
    (hh : ∀ c, l.head? = some c → isPyWs c = false)
    (hl : ∀ c, l.getLast? = some c → isPyWs c = false) : stripWs l = l := by
  unfold stripWs
  rw [dropWhile_eq_self_of_head _ _ hh]
  rw [dropWhile_eq_self_of_head _ _ (by simpa using hl)]
  exact l.reverse_reverse

theorem stripWs_head_false {l : List Char} {c : Char}
    (h : (stripWs l).head? = some c) : isPyWs c = false := by
  unfold stripWs at h
  rw [List.head?_reverse] at h
  set A := l.dropWhile isPyWs with hA
  have hsplit : A.reverse.takeWhile isPyWs ++ A.reverse.dropWhile isPyWs = A.reverse :=
    List.takeWhile_append_dropWhile isPyWs A.reverse
  have hlast : A.reverse.getLast? = some c := by
    rw [← hsplit, List.getLast?_append, h]
    rfl
  rw [List.getLast?_reverse] at hlast
  exact dropWhile_head_false hlast

theorem stripWs_getLast_false {l : List Char} {c : Char}
    (h : (stripWs l).getLast? = some c) : isPyWs c = false := by
  unfold stripWs at h
  rw [List.getLast?_reverse] at h
  exact dropWhile_head_false h

theorem mem_collapseWsAux {b : Bool} {l : List Char} {c : Char}
    (h : c ∈ collapseWsAux b l) : c = ' ' ∨ c ∈ l := by
  induction l generalizing b with
  | nil => simp [collapseWsAux] at h
  | cons a t ih =>
    by_cases hws : isPyWs a
    · cases b with
      | true =>
        simp only [collapseWsAux, hws, if_pos, if_true] at h
        rcases ih h with h' | h'
        · exact Or.inl h'
        · exact Or.inr (List.mem_cons_of_mem a h')
      | false =>
        simp only [collapseWsAux, hws, if_pos, if_false] at h
        rcases List.mem_cons.mp h with h' | h'
        · exact Or.inl h'
        · rcases ih h' with h'' | h''
          · exact Or.inl h''
          · exact Or.inr (List.mem_cons_of_mem a h'')
    · simp only [collapseWsAux, hws, Bool.false_eq_true, if_neg, if_false] at h
      rcases List.mem_cons.mp h with h' | h'
      · subst h'; exact Or.inr (List.mem_cons_self c t)
      · rcases ih h' with h'' | h''
        · exact Or.inl h''
        · exact Or.inr (List.mem_cons_of_mem a h'')

theorem collapseWsAux_ws_eq_space {b : Bool} {l : List Char} {c : Char}
    (h : c ∈ collapseWsAux b l) (hws : isPyWs c = true) : c = ' ' := by
  induction l generalizing b with
  | nil => simp [collapseWsAux] at h
  | cons a t ih =>
    by_cases ha : isPyWs a
    · cases b with
      | true =>
        simp only [collapseWsAux, ha, if_pos, if_true] at h
        exact ih h
      | false =>
        simp only [collapseWsAux, ha, if_pos, if_false] at h
        rcases List.mem_cons.mp h with h' | h'
        · exact h'
        · exact ih h'
    · simp only [collapseWsAux, ha, Bool.false_eq_true, if_neg, if_false] at h
      rcases List.mem_cons.mp h with h' | h'
      · subst h'; rw [hws] at ha; exact absurd rfl ha
      · exact ih h'

theorem collapseWsAux_true_head {l : List Char} {c : Char}
    (h : (collapseWsAux true l).head? = some c) : isPyWs c = false := by
  induction l with
  | nil => simp [collapseWsAux] at h
  | cons a t ih =>
    by_cases ha : isPyWs a
    · simp only [collapseWsAux, ha, if_pos, if_true] at h
      exact ih h
    · simp only [collapseWsAux, ha, Bool.false_eq_true, if_neg, if_false] at h
      simp only [List.head?_cons, Option.some.injEq] at h
      subst h
      simpa using ha

/-- Adjacent output characters of the whitespace-collapsing pass are never
both whitespace. -/
def noTwoWs (a b : Char) : Prop := ¬(isPyWs a = true ∧ isPyWs b = true)

theorem chain_collapseWsAux (b : Bool) (l : List Char) :
    List.Chain' noTwoWs (collapseWsAux b l) := by
  induction l generalizing b with
  | nil => simp [collapseWsAux]
  | cons a t ih =>
    by_cases ha : isPyWs a
    · cases b with
      | true =>
        simpa only [collapseWsAux, ha, if_pos, if_true] using ih true
      | false =>
        simp only [collapseWsAux, ha, if_true, Bool.false_eq_true, if_false]
        rw [List.chain'_cons']
        refine ⟨?_, ih true⟩
        intro y hy
        have : isPyWs y = false := collapseWsAux_true_head hy
        intro hcontra
        rw [this] at hcontra
        exact absurd hcontra.2 (by simp)
    · simp only [collapseWsAux, ha, Bool.false_eq_true, if_neg, if_false]
      rw [List.chain'_cons']
      refine ⟨?_, ih false⟩
      intro y _
      intro hcontra
      rw [eq_false_of_ne_true ha] at hcontra
      exact absurd hcontra.1 (by simp)

theorem chain_stripWs {l : List Char} (h : List.Chain' noTwoWs l) :
    List.Chain' noTwoWs (stripWs l) := by
  unfold stripWs
  have symm : ∀ a b : Char, noTwoWs a b → noTwoWs b a := by
    intro a b hab hcontra
    exact hab ⟨hcontra.2, hcontra.1⟩
  have h1 : List.Chain' noTwoWs (l.dropWhile isPyWs) := by
    have hsplit := (List.takeWhile_append_dropWhile isPyWs l).symm
    rw [hsplit] at h
    exact h.right_of_append
  have h2 : List.Chain' noTwoWs (l.dropWhile isPyWs).reverse := by
    rw [List.chain'_reverse]
    exact h1.imp (fun a b hab => symm a b hab)
  have h3 : List.Chain' noTwoWs ((l.dropWhile isPyWs).reverse.dropWhile isPyWs) := by
    have hsplit := (List.takeWhile_append_dropWhile isPyWs
      (l.dropWhile isPyWs).reverse).symm
    rw [hsplit] at h2
    exact h2.right_of_append
  rw [List.chain'_reverse]
  exact h3.imp (fun a b hab => symm a b hab)

/-! ## Claim C3: text sanitization -/

/-- Claim C3 counterexample: `sanitize_text` does not remove all
non-ASCII characters — the BMP character U+00E9 (`é`) survives
unchanged, because the regex `[^\u0000-\u007F\u0080-￿]` only matches
code points above U+FFFF. -/
theorem C3_counterexample :
    sanitize_text [Char.ofNat 233] = [Char.ofNat 233] ∧
      127 < (Char.ofNat 233).toNat := by
  decide

/-- Claim C3 (amended): `sanitize_text` removes regex-special characters,
removes the characters above U+FFFF (astral-plane emoji), and collapses
every run of whitespace to a single space (stripping the ends);
consequently every character of the output is a Basic-Multilingual-Plane
character that is not regex-special, every whitespace character of the
output is a single space, and no two adjacent output characters are both
whitespace. -/
theorem C3_amended_thm (s : List Char) :
    (∀ c ∈ sanitize_text s,
      isRegexSpecial c = false ∧ c.toNat ≤ 0xFFFF ∧ (isPyWs c = true → c = ' ')) ∧
    List.Chain' noTwoWs (sanitize_text s) := by
  by_cases hs : s = []
  · simp [sanitize_text, hs]
  · have hform : sanitize_text s =
        stripWs (collapseWs ((s.filter (fun c => !(isRegexSpecial c))).filter
          (fun c => !(isAstral c)))) := by
      simp [sanitize_text, hs]
    constructor
    · intro c hc
      rw [hform] at hc
      have hcol : c ∈ collapseWs ((s.filter (fun c => !(isRegexSpecial c))).filter
          (fun c => !(isAstral c))) := mem_stripWs hc
      have hsplit := mem_collapseWsAux (b := false) hcol
      refine ⟨?_, ?_, ?_⟩
      · rcases hsplit with h' | h'
        · subst h'; decide
        · have := (List.mem_filter.mp (List.mem_filter.mp h').1).2
          simpa using this
      · rcases hsplit with h' | h'
        · subst h'; decide
        · have := (List.mem_filter.mp h').2
          have hA : ¬(0xFFFF < c.toNat) := by
            have hA' : isAstral c = false := by simpa using this
            unfold isAstral at hA'
            exact of_decide_eq_false hA'
          omega
      · intro hws
        exact collapseWsAux_ws_eq_space hcol hws
    · rw [hform]
      exact chain_stripWs (chain_collapseWsAux false _)

/-- Claim C3 witness: the amended theorem applied to a concrete string
holding a double space, a parenthesised group and a star. -/
theorem C3_witness :
    (isRegexSpecial 'a' = false ∧ 'a'.toNat ≤ 0xFFFF ∧
      (isPyWs 'a' = true → 'a' = ' ')) ∧
    List.Chain' noTwoWs (sanitize_text "a  (b)*  c".data) :=
  ⟨(C3_amended_thm "a  (b)*  c".data).1 'a' (by decide),
   (C3_amended_thm "a  (b)*  c".data).2⟩

/-! ## Claim C4: filename sanitization idempotence -/

/-- Claim C4 counterexample: `sanitize_filename` is not idempotent.
With maximum length 3 (the same length on both applications), the input
`"ab c"` sanitizes to `"ab "` — truncation happens after stripping and
exposes a trailing space — which re-sanitizes to `"ab"`; and the empty
string sanitizes to the fallback `"untitled"`, which re-sanitizes to its
truncation `"unt"`. -/
theorem C4_counterexample :
    sanitize_filename (sanitize_filename "ab c" 3) 3 ≠ sanitize_filename "ab c" 3 ∧
    sanitize_filename (sanitize_filename "" 3) 3 ≠ sanitize_filename "" 3 := by
  decide

theorem sanitize_filename_chars_mem_keep {name : List Char} {m : Nat} {c : Char}
    (h : c ∈ (stripWs (name.filter keepFilenameChar)).take m) :
    keepFilenameChar c = true := by
  have h1 := List.take_subset m _ h
  have h2 := mem_stripWs h1
  exact (List.mem_filter.mp h2).2

theorem sanitize_filename_chars_untitled {m : Nat} (hm : 8 ≤ m) :
    sanitize_filename_chars "untitled".data m = "untitled".data := by
  unfold sanitize_filename_chars
  have h1 : ("untitled".data.filter keepFilenameChar) = "untitled".data := by decide
  have h2 : stripWs "untitled".data = "untitled".data := by decide
  rw [h1, h2, List.take_of_length_le
    (by rw [show ("untitled".data).length = 8 from by decide]; exact hm)]
  decide

/-- Claim C4 (amended): `sanitize_filename` is idempotent provided the
first result carries no trailing whitespace (truncation after stripping
can expose one) and the maximum length is at least the length of the
`"untitled"` fallback (8), so the fallback is not itself truncated. -/
theorem C4_amended_thm (name : String) (m : Nat) (hm : 8 ≤ m)
    (htrail : ∀ c, (sanitize_filename name m).data.getLast? = some c →
      isPyWs c = false) :
    sanitize_filename (sanitize_filename name m) m = sanitize_filename name m := by
  unfold sanitize_filename at htrail ⊢
  rw [show (String.mk (sanitize_filename_chars name.data m)).data =
    sanitize_filename_chars name.data m from rfl] at htrail
  rw [show (String.mk (sanitize_filename_chars name.data m)).data =
    sanitize_filename_chars name.data m from rfl]
  congr 1
  by_cases hg : (stripWs (name.data.filter keepFilenameChar)).take m = []
  · have hr : sanitize_filename_chars name.data m = "untitled".data := by
      unfold sanitize_filename_chars
      rw [hg]
      rfl
    rw [hr]
    exact sanitize_filename_chars_untitled hm
  · have hr : sanitize_filename_chars name.data m =
        (stripWs (name.data.filter keepFilenameChar)).take m := by
      unfold sanitize_filename_chars
      rw [if_neg hg]
    set g := (stripWs (name.data.filter keepFilenameChar)).take m with hgdef
    rw [hr]
    have hkeep : ∀ c ∈ g, keepFilenameChar c = true := fun c hc =>
      sanitize_filename_chars_mem_keep hc
    have hfilter : g.filter keepFilenameChar = g := List.filter_eq_self.mpr hkeep
    have hhead : ∀ c, g.head? = some c → isPyWs c = false := fun c hc =>
      stripWs_head_false (head?_take_eq_some hc)
    have hlast : ∀ c, g.getLast? = some c → isPyWs c = false := by
      intro c hc
      apply htrail
      rw [hr]
      exact hc
    have hstrip : stripWs g = g := stripWs_eq_self hhead hlast
    have htake : g.take m = g := by
      apply List.take_of_length_le
      rw [hgdef, List.length_take]
      exact min_le_left _ _
    unfold sanitize_filename_chars
    rw [hfilter, hstrip, htake, if_neg hg]

/-- Claim C4 witness: the amended theorem applied to `"hello"` at the
configured maximum length 36. -/
theorem C4_witness :
    sanitize_filename (sanitize_filename "hello" 36) 36 =
      sanitize_filename "hello" 36 :=
  C4_amended_thm "hello" 36 (by decide) (by
    intro c hc
    rw [show (sanitize_filename "hello" 36).data.getLast? = some 'o' from by decide]
      at hc
    cases hc
    decide)

/-! ## Claim C8: timestamp formatting -/

/-- Number of colon characters in a string (separates the components of
a formatted timestamp). -/
def colonCount (s : String) : Nat := s.data.count ':'

theorem notMem_colon_natDigitsAux (fuel : Nat) : ∀ n, ':' ∉ natDigitsAux fuel n := by
  induction fuel with
  | zero => intro n; simp [natDigitsAux]
  | succ f ih =>
    intro n
    by_cases h : n < 10
    · simp only [natDigitsAux, h, if_true, List.mem_singleton]
      interval_cases n <;> decide
    · simp only [natDigitsAux, h, if_false, List.mem_append, List.mem_singleton]
      push_neg
      refine ⟨ih (n / 10), ?_⟩
      have hmod : n % 10 < 10 := Nat.mod_lt n (by omega)
      set k := n % 10 with hk
      interval_cases k <;> decide

theorem natDigitsAux_length_pos (fuel n : Nat) (hf : 0 < fuel) :
    0 < (natDigitsAux fuel n).length := by
  cases fuel with
  | zero => omega
  | succ f =>
    by_cases h : n < 10
    · simp [natDigitsAux, h]
    · simp [natDigitsAux, h]

theorem colonCount_pad2 (n : Nat) : colonCount (pad2 n) = 0 := by
  unfold colonCount pad2
  by_cases h : n < 10
  · rw [if_pos h]
    rw [String.data_append]
    apply List.count_eq_zero.mpr
    simp only [List.mem_append]
    push_neg
    constructor
    · decide
    · exact notMem_colon_natDigitsAux (n + 1) n
  · rw [if_neg h]
    exact List.count_eq_zero.mpr (notMem_colon_natDigitsAux (n + 1) n)

theorem pad2_length_eq_two : ∀ n, n < 100 → (pad2 n).length = 2 := by decide

theorem pad2_length_ge_two (n : Nat) : 2 ≤ (pad2 n).length := by
  unfold pad2
  by_cases h : n < 10
  · rw [if_pos h]
    rw [String.length_append]
    have : (natStr n).length = 1 := by
      unfold natStr natDigits
      rw [String.length_mk]
      simp [natDigitsAux, h]
    rw [this]
    decide
  · rw [if_neg h]
    unfold natStr natDigits
    rw [String.length_mk]
    have hn : ¬ n < 10 := h
    cases n with
    | zero => omega
    | succ k =>
      simp only [natDigitsAux, hn, if_false, List.length_append]
      have e1 : ([digitChar ((k + 1) % 10)]).length = 1 := rfl
      split
      · have e2 : ([digitChar ((k + 1) / 10)]).length = 1 := rfl
        omega
      · rw [List.length_append]
        have e3 : ([digitChar ((k + 1) / 10 % 10)]).length = 1 := rfl
        omega

theorem colonCount_colon : colonCount ":" = 1 := by decide

/-- Claim C8: `parse_time_format` maps 0 to `"00:00"`, 3661 to
`"01:01:01"` and 59 to `"00:59"`; below 3600 seconds the output is the
five-character `MM:SS` form with a single colon (no hour component), and
from 3600 seconds on it is the `HH:MM:SS` form with two colons and at
least eight characters. -/
theorem C8_parse_time_format :
    parse_time_format 0 = "00:00" ∧
    parse_time_format 3661 = "01:01:01" ∧
    parse_time_format 59 = "00:59" ∧
    (∀ s, s < 3600 →
      (parse_time_format s).length = 5 ∧ colonCount (parse_time_format s) = 1) ∧
    (∀ s, 3600 ≤ s →
      colonCount (parse_time_format s) = 2 ∧ 8 ≤ (parse_time_format s).length) := by
  refine ⟨by decide, by decide, by decide, ?_, ?_⟩
  · intro s hs
    have hh : s / 3600 = 0 := Nat.div_eq_of_lt hs
    have hform : parse_time_format s =
        pad2 (s % 3600 / 60) ++ ":" ++ pad2 (s % 3600 % 60) := by
      unfold parse_time_format
      rw [hh]
      simp
    have hm : s % 3600 / 60 < 100 := by
      have h1 : s % 3600 < 3600 := Nat.mod_lt s (by omega)
      omega
    have hsec : s % 3600 % 60 < 100 := by
      have := Nat.mod_lt (s % 3600) (show 0 < 60 by omega)
      omega
    constructor
    · rw [hform, String.length_append, String.length_append,
        pad2_length_eq_two _ hm, pad2_length_eq_two _ hsec]
      rfl
    · rw [hform]
      unfold colonCount
      rw [String.data_append, String.data_append, List.count_append,
        List.count_append]
      have c1 := colonCount_pad2 (s % 3600 / 60)
      have c2 := colonCount_pad2 (s % 3600 % 60)
      unfold colonCount at c1 c2
      rw [c1, c2]
      rfl
  · intro s hs
    have hh : s / 3600 ≠ 0 := by
      have : 1 ≤ s / 3600 := (Nat.le_div_iff_mul_le (by omega)).mpr (by omega)
      omega
    have hform : parse_time_format s =
        pad2 (s / 3600) ++ ":" ++ pad2 (s % 3600 / 60) ++ ":" ++
          pad2 (s % 3600 % 60) := by
      unfold parse_time_format
      simp [hh]
    constructor
    · rw [hform]
      unfold colonCount
      simp only [String.data_append, List.count_append]
      have c1 := colonCount_pad2 (s / 3600)
      have c2 := colonCount_pad2 (s % 3600 / 60)
      have c3 := colonCount_pad2 (s % 3600 % 60)
      unfold colonCount at c1 c2 c3
      rw [c1, c2, c3]
      rfl
    · rw [hform]
      simp only [String.length_append]
      have g1 := pad2_length_ge_two (s / 3600)
      have g2 := pad2_length_ge_two (s % 3600 / 60)
      have g3 := pad2_length_ge_two (s % 3600 % 60)
      have hcolon : (":" : String).length = 1 := by decide
      omega

/-- Claim C8 witness: the bounded branches of the theorem applied at 135
seconds (`"02:15"`) and 7265 seconds (`"02:01:05"`). -/
theorem C8_witness :
    ((parse_time_format 135).length = 5 ∧ colonCount (parse_time_format 135) = 1) ∧
    (colonCount (parse_time_format 7265) = 2 ∧ 8 ≤ (parse_time_format 7265).length) :=
  ⟨C8_parse_time_format.2.2.2.1 135 (by decide),
   C8_parse_time_format.2.2.2.2 7265 (by decide)⟩

/-! ## Claims C6 and C1: duplicate detection -/

theorem scan_eq_paired (rest : List FileEntry) :
    ∀ (hashes : List (Option (List Nat) × String)) (seen : List FileEntry),
    (∀ h, lookupHash hashes h =
      (List.find? (fun g => decide (compute_sha1 g.2 = h)) seen).map (·.1)) →
    scanFiles hashes rest = pairedWithFirstAux seen rest := by
  induction rest with
  | nil => intro hashes seen _; rfl
  | cons f rest ih =>
    intro hashes seen hinv
    obtain ⟨path, content⟩ := f
    simp only [scanFiles, pairedWithFirstAux]
    rw [hinv (compute_sha1 content)]
    cases hfind : List.find?
        (fun g => decide (compute_sha1 g.2 = compute_sha1 (path, content).2)) seen with
    | none =>
      simp only [hfind, Option.map_none']
      apply ih
      intro h
      unfold lookupHash
      by_cases hd : compute_sha1 content = h
      · subst hd
        rw [List.find?_cons_of_pos _ (by simp)]
        rw [List.find?_append, hfind, Option.none_or, List.find?_singleton,
          if_pos (by simp)]
        rfl
      · rw [List.find?_cons_of_neg _ (by simpa using hd)]
        rw [List.find?_append]
        cases hsf : List.find? (fun g => decide (compute_sha1 g.2 = h)) seen with
        | none =>
          rw [Option.none_or, List.find?_singleton, if_neg (by simpa using hd)]
          have := hinv h
          unfold lookupHash at this
          rw [hsf] at this
          simpa using this
        | some x =>
          rw [Option.or_some]
          have := hinv h
          unfold lookupHash at this
          rw [hsf] at this
          simpa using this
    | some g =>
      simp only [hfind, Option.map_some']
      congr 1
      apply ih
      intro h
      rw [List.find?_append]
      cases hsf : List.find? (fun g => decide (compute_sha1 g.2 = h)) seen with
      | none =>
        rw [Option.none_or, List.find?_singleton]
        by_cases hd : compute_sha1 content = h
        · subst hd
          rw [hfind] at hsf
          exact absurd hsf (by simp)
        · rw [if_neg (by simpa using hd)]
          have := hinv h
          rw [hsf] at this
          simpa using this
      | some x =>
        rw [Option.or_some]
        have := hinv h
        rw [hsf] at this
        simpa using this

/-- Claim C6: the duplicate report pairs every record file having an
earlier byte-identical record file with the first-seen file of that
content (so n byte-identical files yield n-1 pairs, all pointing at the
first); concretely, three identical record files and one differing one
yield exactly two pairs, both referencing the first file, with the
differing file in no pair. -/
theorem C6_find_duplicates :
    (∀ files : List FileEntry,
      find_duplicate_transcripts files =
        pairedWithFirst (files.filter (fun f => pyEndsWith f.1 ".json"))) ∧
    find_duplicate_transcripts
        [("a.json", some [1, 2]), ("b.json", some [1, 2]),
         ("c.json", some [1, 2]), ("d.json", some [9])] =
      [("b.json", "a.json"), ("c.json", "a.json")] := by
  constructor
  · intro files
    unfold find_duplicate_transcripts pairedWithFirst
    apply scan_eq_paired
    intro h
    rfl
  · decide

/-- Claim C1: when digest computation fails for two distinct files, the
report does relate them — `compute_sha1` returns the `None` sentinel,
which the walk loop uses as an ordinary dictionary key, so the first
unreadable record file becomes the "original" and every later unreadable
one is reported as its duplicate. -/
theorem C1_eval :
    find_duplicate_transcripts [("a.json", none), ("b.json", none)] =
      [("b.json", "a.json")] := by
  decide

/-! ## Claim C2: batch URL construction -/

/-- Claim C2 counterexample: in CSV mode a first-column value that is
already a full URL does not pass through unchanged — it is prefixed with
the canonical watch-URL base like any other value. -/
theorem C2_counterexample :
    process_csv_rows
        [["Video ID"], ["https://www.youtube.com/watch?v=dQw4w9WgXcQ"]] =
      some
        ["https://www.youtube.com/watch?v=https://www.youtube.com/watch?v=dQw4w9WgXcQ"] ∧
    ¬ process_csv_rows
        [["Video ID"], ["https://www.youtube.com/watch?v=dQw4w9WgXcQ"]] =
      some ["https://www.youtube.com/watch?v=dQw4w9WgXcQ"] := by
  decide

theorem buildCsvUrls_forall (rows : List (List String)) :
    ∀ urls, buildCsvUrls rows = some urls →
    List.Forall₂ (fun (row : List String) (u : String) =>
      ∃ c, row.head? = some c ∧ u = watchUrlBase ++ pystrip c) rows urls := by
  induction rows with
  | nil =>
    intro urls h
    unfold buildCsvUrls at h
    cases h
    exact List.Forall₂.nil
  | cons row rest ih =>
    intro urls h
    unfold buildCsvUrls at h
    cases hh : row.head? with
    | none => rw [hh] at h; cases h
    | some c =>
      rw [hh] at h
      change Option.map (fun us => (watchUrlBase ++ pystrip c) :: us)
        (buildCsvUrls rest) = some urls at h
      cases hb : buildCsvUrls rest with
      | none => rw [hb] at h; cases h
      | some us =>
        rw [hb, Option.map_some'] at h
        cases h
        exact List.Forall₂.cons ⟨c, hh, rfl⟩ (ih us hb)

/-- Claim C2 (amended): for a CSV input the first row is skipped as a
header, and every remaining row's first cell is stripped and then
unconditionally prefixed with `https://www.youtube.com/watch?v=` — full
URLs included.  Pass-through of values already starting with
`"https://"` happens only in the plain-text mode, where any other line
is prefixed. -/
theorem C2_amended_thm :
    (∀ (header : List String) (rows : List (List String)) (urls : List String),
      process_csv_rows (header :: rows) = some urls →
      List.Forall₂ (fun (row : List String) (u : String) =>
        ∃ c, row.head? = some c ∧ u = watchUrlBase ++ pystrip c) rows urls) ∧
    (∀ lines : List String,
      List.Forall₂ (fun (l u : String) =>
        u = if pyStartsWith (pystrip l) "https://" then pystrip l
            else watchUrlBase ++ pystrip l) lines (process_text_lines lines)) := by
  constructor
  · intro header rows urls h
    exact buildCsvUrls_forall rows urls h
  · intro lines
    induction lines with
    | nil => exact List.Forall₂.nil
    | cons l ls ih => exact List.Forall₂.cons rfl ih

/-- Claim C2 witness: the CSV part of the amended theorem applied to a
one-row file below its header. -/
theorem C2_witness :
    List.Forall₂ (fun (row : List String) (u : String) =>
      ∃ c, row.head? = some c ∧ u = watchUrlBase ++ pystrip c)
      [["dQw4w9WgXcQ"]] ["https://www.youtube.com/watch?v=dQw4w9WgXcQ"] :=
  C2_amended_thm.1 ["Video ID"] [["dQw4w9WgXcQ"]]
    ["https://www.youtube.com/watch?v=dQw4w9WgXcQ"] (by decide)

/-! ## Claims C5 and C7: the per-video fetch flow -/

theorem fetch_core_used (u i : String) (m fetched : Metadata)
    (tr : TranscriptResult) :
    (fetch_single_video_core u i (some m) fetched tr).usedProvided =
      (decide (m ≠ []) && is_metadata_valid m) := by
  cases tr <;> by_cases h1 : m = [] <;> by_cases h2 : is_metadata_valid m <;>
    by_cases h3 : fetched = [] <;>
    simp [fetch_single_video_core, h1, h2, h3]

theorem fetch_core_effMeta (u i : String) (m fetched : Metadata)
    (tr : TranscriptResult) :
    (fetch_single_video_core u i (some m) fetched tr).effectiveMeta =
      (if m ≠ [] ∧ is_metadata_valid m = true then m else fetched) := by
  cases tr <;> by_cases h1 : m = [] <;> by_cases h2 : is_metadata_valid m <;>
    by_cases h3 : fetched = [] <;>
    simp [fetch_single_video_core, h1, h2, h3]

theorem key_ok_iff (m : Metadata) (k : String) :
    (match dictFind m k with
      | some v => !(isEmptyish v)
      | none => false) = true ↔
    ∃ v, dictFind m k = some v ∧ isEmptyish v = false := by
  cases hf : dictFind m k with
  | none => simp
  | some v =>
    simp only [Bool.not_eq_true', Option.some.injEq]
    constructor
    · intro h
      exact ⟨v, rfl, h⟩
    · rintro ⟨w, hw, he⟩
      subst hw
      exact he

theorem is_metadata_valid_iff (m : Metadata) :
    is_metadata_valid m = true ↔
      ((∃ v, dictFind m "title" = some v ∧ isEmptyish v = false) ∧
       (∃ v, dictFind m "channel_title" = some v ∧ isEmptyish v = false) ∧
       (∃ v, dictFind m "publish_date" = some v ∧ isEmptyish v = false) ∧
       (∃ v, dictFind m "duration" = some v ∧ isEmptyish v = false) ∧
       (∃ v, dictFind m "tags" = some v ∧ isEmptyish v = false)) := by
  unfold is_metadata_valid required_keys
  simp only [List.all_cons, List.all_nil, Bool.and_eq_true, Bool.and_true]
  rw [key_ok_iff, key_ok_iff, key_ok_iff, key_ok_iff, key_ok_iff]

/-- Claim C5: caller-supplied metadata is used as-is exactly when all
five required attributes are present with values that are not `None`,
not the empty string and not the empty list; whenever it is not used
as-is, the metadata in effect is the freshly resolved one. -/
theorem C5_metadata_validation (m : Metadata) (u i : String) (fetched : Metadata)
    (tr : TranscriptResult) :
    ((fetch_single_video_core u i (some m) fetched tr).usedProvided = true ↔
      ((∃ v, dictFind m "title" = some v ∧ isEmptyish v = false) ∧
       (∃ v, dictFind m "channel_title" = some v ∧ isEmptyish v = false) ∧
       (∃ v, dictFind m "publish_date" = some v ∧ isEmptyish v = false) ∧
       (∃ v, dictFind m "duration" = some v ∧ isEmptyish v = false) ∧
       (∃ v, dictFind m "tags" = some v ∧ isEmptyish v = false))) ∧
    ((fetch_single_video_core u i (some m) fetched tr).usedProvided = false →
      (fetch_single_video_core u i (some m) fetched tr).effectiveMeta = fetched) := by
  constructor
  · rw [fetch_core_used, Bool.and_eq_true, decide_eq_true_eq]
    constructor
    · intro h
      exact (is_metadata_valid_iff m).mp h.2
    · intro h5
      refine ⟨?_, (is_metadata_valid_iff m).mpr h5⟩
      rcases h5.1 with ⟨v, hv, _⟩
      intro hm
      subst hm
      cases hv
  · intro h
    rw [fetch_core_used] at h
    rw [fetch_core_effMeta]
    rw [if_neg]
    intro hcontra
    rw [Bool.and_eq_false_iff] at h
    rcases h with h | h
    · rw [decide_eq_false_iff_not] at h
      exact h hcontra.1
    · rw [hcontra.2] at h
      cases h

/-- Claim C5 witness: the spec's own example — metadata missing the
`tags` key is rejected and the fresh resolution is used instead. -/
theorem C5_witness :
    (fetch_single_video_core "https://www.youtube.com/watch?v=dQw4w9WgXcQ"
        "dQw4w9WgXcQ"
        (some [("title", .vstr "T"), ("channel_title", .vstr "C"),
               ("publish_date", .vstr "2020-01-01"), ("duration", .vstr "PT1M")])
        [("title", .vstr "Fresh")] .notFound).effectiveMeta =
      [("title", .vstr "Fresh")] :=
  (C5_metadata_validation
    [("title", .vstr "T"), ("channel_title", .vstr "C"),
     ("publish_date", .vstr "2020-01-01"), ("duration", .vstr "PT1M")]
    "https://www.youtube.com/watch?v=dQw4w9WgXcQ" "dQw4w9WgXcQ"
    [("title", .vstr "Fresh")] .notFound).2 (by decide)

theorem fetch_core_saveCall_disabled (u i : String) (s : Option Metadata)
    (fetched : Metadata) :
    (fetch_single_video_core u i s fetched .disabled).saveCall = none := by
  cases s with
  | none =>
    by_cases h3 : fetched = [] <;> simp [fetch_single_video_core, h3]
  | some m =>
    by_cases h1 : m = [] <;> by_cases h2 : is_metadata_valid m <;>
      by_cases h3 : fetched = [] <;>
      simp [fetch_single_video_core, h1, h2, h3]

theorem fetch_core_last_disabled (u i : String) (s : Option Metadata)
    (fetched : Metadata)
    (h : (fetch_single_video_core u i s fetched .disabled).effectiveMeta ≠ []) :
    (fetch_single_video_core u i s fetched .disabled).printed.getLast? =
      some "Transcripts are disabled for this video." := by
  cases s with
  | none =>
    by_cases h3 : fetched = [] <;>
      simp_all [fetch_single_video_core, h3, List.getLast?_concat]
  | some m =>
    by_cases h1 : m = [] <;> by_cases h2 : is_metadata_valid m <;>
      by_cases h3 : fetched = [] <;>
      simp_all [fetch_single_video_core, h1, h2, h3, List.getLast?_concat]

theorem fetch_core_last_notFound (u i : String) (s : Option Metadata)
    (fetched : Metadata)
    (h : (fetch_single_video_core u i s fetched .notFound).effectiveMeta ≠ []) :
    (fetch_single_video_core u i s fetched .notFound).printed.getLast? =
      some "No transcript found for this video." := by
  cases s with
  | none =>
    by_cases h3 : fetched = [] <;>
      simp_all [fetch_single_video_core, h3, List.getLast?_concat]
  | some m =>
    by_cases h1 : m = [] <;> by_cases h2 : is_metadata_valid m <;>
      by_cases h3 : fetched = [] <;>
      simp_all [fetch_single_video_core, h1, h2, h3, List.getLast?_concat]

theorem fetch_core_effMeta_tr_irrel (u i : String) (s : Option Metadata)
    (fetched : Metadata) (tr tr' : TranscriptResult) :
    (fetch_single_video_core u i s fetched tr).effectiveMeta =
      (fetch_single_video_core u i s fetched tr').effectiveMeta := by
  cases s with
  | none =>
    cases tr <;> cases tr' <;> by_cases h3 : fetched = [] <;>
      simp [fetch_single_video_core, h3]
  | some m =>
    rw [fetch_core_effMeta, fetch_core_effMeta]

/-- Claim C7: on the transcripts-disabled signal no `save_transcript`
call is made, and (whenever the run reaches the transcript phase, that
is, metadata resolution produced something) the printed message is the
disabled-specific one, distinct from the no-transcript-found message. -/
theorem C7_disabled (u i : String) (s : Option Metadata) (fetched : Metadata) :
    ((fetch_single_video_core u i s fetched .disabled).saveCall = none) ∧
    ((fetch_single_video_core u i s fetched .disabled).effectiveMeta ≠ [] →
      ((fetch_single_video_core u i s fetched .disabled).printed.getLast? =
          some "Transcripts are disabled for this video." ∧
       (fetch_single_video_core u i s fetched .notFound).printed.getLast? =
          some "No transcript found for this video." ∧
       ("Transcripts are disabled for this video." : String) ≠
          "No transcript found for this video.")) := by
  refine ⟨fetch_core_saveCall_disabled u i s fetched, ?_⟩
  intro h
  refine ⟨fetch_core_last_disabled u i s fetched h, ?_, by decide⟩
  apply fetch_core_last_notFound
  rw [← fetch_core_effMeta_tr_irrel u i s fetched .disabled .notFound]
  exact h

/-- Claim C7 witness: the theorem applied with a successfully resolved
metadata map. -/
theorem C7_witness :
    (fetch_single_video_core "u" "dQw4w9WgXcQ" none [("title", .vstr "T")]
        .disabled).printed.getLast? =
      some "Transcripts are disabled for this video." :=
  ((C7_disabled "u" "dQw4w9WgXcQ" none [("title", .vstr "T")]).2 (by decide)).1

/-! ## Claim C9: channel enumeration, single page -/

/-- Claim C9: when the first playlist page carries no continuation
token, exactly that one page's rows are collected, their count equals
the number of entries carrying a resolvable video identifier (items
without one are skipped), and a missing or unparseable ISO-8601 duration
formats as zero seconds (`"00:00"`) instead of failing the item. -/
theorem C9_channel_single_page (metaOf : String → VideoInfo)
    (p0 : PlaylistPage) (rest : List PlaylistPage)
    (htok : p0.nextPageToken = none) :
    fetch_channel_videos metaOf (p0 :: rest) = rowsOfPage metaOf p0 ∧
    (fetch_channel_videos metaOf (p0 :: rest)).length =
      (p0.items.filterMap PlaylistItem.videoId).length ∧
    (∀ v : VideoInfo,
      v.duration = none ∨ parseISODuration (v.duration.getD "Unknown") = none →
      (mkRow v).durationDisplay = "00:00") := by
  have h1 : fetch_channel_videos metaOf (p0 :: rest) = rowsOfPage metaOf p0 := by
    unfold fetch_channel_videos loopPages
    rw [htok]
    simp
  refine ⟨h1, ?_, ?_⟩
  · rw [h1]
    unfold rowsOfPage
    by_cases he : (p0.items.filterMap PlaylistItem.videoId).isEmpty
    · rw [if_pos he]
      rw [List.isEmpty_iff] at he
      rw [he]
      rfl
    · rw [if_neg he]
      simp
  · intro v hv
    have hz : parse_iso8601_duration (v.duration.getD "Unknown") = 0 := by
      rcases hv with h' | h'
      · rw [h']
        decide
      · unfold parse_iso8601_duration
        rw [h']
        rfl
    show parse_time_format (parse_iso8601_duration (v.duration.getD "Unknown")) =
      "00:00"
    rw [hz]
    decide

/-- Claim C9 witness: a one-page provider response with two resolvable
identifiers and one unresolvable item, plus a bogus duration string. -/
theorem C9_witness :
    (fetch_channel_videos (fun i => ⟨i, none, none, none, none, none⟩)
        [⟨[⟨some "a"⟩, ⟨none⟩, ⟨some "b"⟩], none⟩]).length =
      (([⟨some "a"⟩, ⟨none⟩, ⟨some "b"⟩] :
          List PlaylistItem).filterMap PlaylistItem.videoId).length ∧
    (mkRow ⟨"x", none, none, none, none, some "bogus"⟩).durationDisplay = "00:00" := by
  have h := C9_channel_single_page (fun i => ⟨i, none, none, none, none, none⟩)
    ⟨[⟨some "a"⟩, ⟨none⟩, ⟨some "b"⟩], none⟩ [] rfl
  exact ⟨h.2.1, h.2.2 ⟨"x", none, none, none, none, some "bogus"⟩ (Or.inr (by decide))⟩

/-! ## Claim C10: persistence under failed re-resolution -/

/-- Claim C10: `save_transcript` writes the record even when the
write-time metadata re-resolution comes back empty — duration defaults
to the string `"Unknown"`, tags to the empty list, the caller's
video url, channel name, title and publish date are stored verbatim,
and every transcript entry is still persisted. -/
theorem C10_save_transcript (url : String) (tr : List TranscriptEntry)
    (ch ti pd : String) :
    (save_transcript url tr ch ti pd []).meta =
      ⟨url, ch, ti, pd, .vstr "Unknown", .vlist []⟩ ∧
    (save_transcript url tr ch ti pd []).transcript.length = tr.length := by
  constructor
  · rfl
  · show (tr.map _).length = tr.length
    rw [List.length_map]

end YTD
